import Mathlib

/-!
# Error wrapping between a Dao layer and a business layer (`main.go`)

A shallow embedding of `main.go`: the error type `sqlError`, its methods `Unwrap` and `Error`,
the three sample constructors and the helper `isSqlErrNoRows`, together with the parts of the
libraries the file calls: `errors.New`, `errors.Wrap`, `errors.Is` of `github.com/pkg/errors`
(v0.9.x, the first release that has `Is`), `errors.Is` / `errors.Unwrap` of the Go standard
library, and the sentinel `sql.ErrNoRows` of `database/sql`.

Conventions of the embedding.

* A Go value of interface type `error` is a `GoError`: either `nil` or a pointer to a value of
  one of the five concrete types that occur in the program.  Every pointer carries the address
  of its allocation; Go compares two interface values by dynamic type and pointer
  (`GoError.ifaceEq`), never by content.
* Allocation is explicit state passing: a function that allocates takes the next unused
  address and returns the advanced one.
* A method call that panics (calling `Error` on a nil interface) is `none`.
* Dynamic dispatch is pattern matching: each arm of `GoError.Unwrap` and `GoError.Error` is the
  body of the method of one concrete type.
* The call stack that `errors.New` and `errors.Wrap` record, and the line that
  `isSqlErrNoRows` prints, only reach the console; they are left out.
-/

namespace DaoErr

/-- The concrete types behind the interface `error` in this program. -/
inductive GoType where
  | errorString
  | fundamental
  | withMessage
  | withStack
  | sqlError
  deriving DecidableEq

/-- An interface value of type `error`.

* `errorString`: `*errors.errorString` of the standard library (`struct { s string }`),
* `fundamental`: `*fundamental` of pkg/errors (`struct { msg string; *stack }`),
* `withMessage`: `*withMessage` of pkg/errors (`struct { cause error; msg string }`),
* `withStack`: `*withStack` of pkg/errors (`struct { error; *stack }`),
* `sqlError`: `*sqlError` of `main.go` (`struct { query string; err error }`). -/
inductive GoError where
  | nil
  | errorString (ptr : Nat) (s : String)
  | fundamental (ptr : Nat) (msg : String)
  | withMessage (ptr : Nat) (cause : GoError) (msg : String)
  | withStack (ptr : Nat) (error : GoError)
  | sqlError (ptr : Nat) (query : String) (err : GoError)
  deriving DecidableEq

namespace GoError

/-- The test `err == nil`. -/
def isNil : GoError → Bool
  | .nil => true
  | _ => false

/-- Dynamic type of an interface value (`none` for the nil interface). -/
def dynType : GoError → Option GoType
  | .nil => none
  | .errorString _ _ => some .errorString
  | .fundamental _ _ => some .fundamental
  | .withMessage _ _ _ => some .withMessage
  | .withStack _ _ => some .withStack
  | .sqlError _ _ _ => some .sqlError

/-- Address held by an interface value (`none` for the nil interface). -/
def addr : GoError → Option Nat
  | .nil => none
  | .errorString p _ => some p
  | .fundamental p _ => some p
  | .withMessage p _ _ => some p
  | .withStack p _ => some p
  | .sqlError p _ _ => some p

/-- Go `a == b` on interface values: same dynamic type and same pointer. -/
def ifaceEq (a b : GoError) : Bool :=
  decide (a.dynType = b.dynType) && decide (a.addr = b.addr)

/-- The method `Unwrap() error` of the dynamic type, `none` when the type has no such method.

* `func (e *sqlError) Unwrap() error { return e.err }` (`main.go`),
* `func (w *withMessage) Unwrap() error { return w.cause }`,
* `func (w *withStack) Unwrap() error { return w.error }`. -/
def Unwrap : GoError → Option GoError
  | .sqlError _ _ err => some err
  | .withMessage _ cause _ => some cause
  | .withStack _ error => some error
  | _ => none

/-- The method `Error() string`; `none` is the panic of a call on the nil interface.

* `func (e *sqlError) Error() string {
     return fmt.Sprintf("err: %s, query: %s", e.err.Error(), e.query) }` (`main.go`),
* `func (e *errorString) Error() string { return e.s }`,
* `func (f *fundamental) Error() string { return f.msg }`,
* `func (w *withMessage) Error() string { return w.msg + ": " + w.cause.Error() }`,
* `withStack` promotes the method of its embedded field `error`. -/
def Error : GoError → Option String
  | .nil => none
  | .errorString _ s => some s
  | .fundamental _ msg => some msg
  | .withMessage _ cause msg =>
    match cause.Error with
    | some c => some (msg ++ ": " ++ c)
    | none => none
  | .withStack _ error => error.Error
  | .sqlError _ query err =>
    match err.Error with
    | some c => some ("err: " ++ c ++ ", query: " ++ query)
    | none => none

/-- A leaf error: a non-nil error whose type has no `Unwrap` method. -/
def isLeaf : GoError → Bool
  | .errorString _ _ => true
  | .fundamental _ _ => true
  | _ => false

/-- A chained error of `main.go`: a `*sqlError`. -/
def isSqlError : GoError → Bool
  | .sqlError _ _ _ => true
  | _ => false

end GoError

namespace stderrors

/-- Standard library `errors.Unwrap`:
`u, ok := err.(interface{ Unwrap() error }); if !ok { return nil }; return u.Unwrap()`. -/
def Unwrap (err : GoError) : GoError :=
  match err.Unwrap with
  | some e => e
  | none => .nil

/-- The loop of the standard library `errors.Is` (all dynamic types here are pointers, hence
comparable, and none has an `Is` method):
`for { if err == target { return true }; err = Unwrap(err); if err == nil { return false } }`.
The recursion is on the cause of the current error. -/
def is (target : GoError) : GoError → Bool
  | .nil => GoError.ifaceEq .nil target
  | .errorString p s => GoError.ifaceEq (.errorString p s) target
  | .fundamental p m => GoError.ifaceEq (.fundamental p m) target
  | .withMessage p cause m =>
    GoError.ifaceEq (.withMessage p cause m) target || (!cause.isNil && is target cause)
  | .withStack p e =>
    GoError.ifaceEq (.withStack p e) target || (!e.isNil && is target e)
  | .sqlError p q e =>
    GoError.ifaceEq (.sqlError p q e) target || (!e.isNil && is target e)

/-- Standard library `errors.Is`:
`if err == nil || target == nil { return err == target }` and then the loop. -/
def Is (err target : GoError) : Bool :=
  if err.isNil || target.isNil then err.ifaceEq target else is target err

end stderrors

namespace errors

/-- The function `New` of pkg/errors: `return &fundamental{msg: message, stack: callers()}`. -/
def New (message : String) (next : Nat) : GoError × Nat :=
  (.fundamental next message, next + 1)

/-- The function `Wrap` of pkg/errors:
`if err == nil { return nil }`,
`err = &withMessage{cause: err, msg: message}`,
`return &withStack{err, callers()}`. -/
def Wrap (err : GoError) (message : String) (next : Nat) : GoError × Nat :=
  if err.isNil then (.nil, next)
  else (.withStack (next + 1) (.withMessage next err message), next + 2)

/-- The function `Is` of pkg/errors: `return stderrors.Is(err, target)`. -/
def Is (err target : GoError) : Bool :=
  stderrors.Is err target

end errors

namespace sql

/-- The sentinel of `database/sql`: `var ErrNoRows = errors.New("sql: no rows in result set")`,
one `*errorString` allocated when the package is initialised (address `0` here). -/
def ErrNoRows : GoError :=
  .errorString 0 "sql: no rows in result set"

end sql

/-- `sqlQueryReturnInvalidQuery`:
`return &sqlError{query: query, err: errors.New("dao: invalid query")}`. -/
def sqlQueryReturnInvalidQuery (next : Nat) : GoError × Nat :=
  let query := "sqlQueryReturnInvalidQuery"
  let r := errors.New "dao: invalid query" next
  (.sqlError r.2 query r.1, r.2 + 1)

/-- `sqlQueryReturnNoRows`: `err := sql.ErrNoRows; return &sqlError{query: query, err: err}`. -/
def sqlQueryReturnNoRows (next : Nat) : GoError × Nat :=
  let query := "sqlQueryReturnNoRows"
  let err := sql.ErrNoRows
  (.sqlError next query err, next + 1)

/-- `sqlQueryReturnNoRowsWithWrap`:
`return errors.Wrap(&sqlError{query: query, err: err}, "wrapped err")`. -/
def sqlQueryReturnNoRowsWithWrap (next : Nat) : GoError × Nat :=
  let query := "sqlQueryReturnNoRowsWithWrap"
  let err := sql.ErrNoRows
  errors.Wrap (.sqlError next query err) "wrapped err" (next + 1)

/-- `isSqlErrNoRows`:
`if errors.Is(err, sql.ErrNoRows) { return true } else { return false }`. -/
def isSqlErrNoRows (err : GoError) : Bool :=
  if errors.Is err sql.ErrNoRows then true else false

/-! ## Vocabulary of the properties -/

/-- The result of `k` successive calls of `errors.Unwrap`, starting from `err`. -/
def unwrapN : Nat → GoError → GoError
  | 0, err => err
  | k + 1, err => unwrapN k (stderrors.Unwrap err)

/-- The error obtained by applying `errors.Wrap` once per message, first message innermost. -/
def wrapAll : List String → GoError → Nat → GoError × Nat
  | [], err, next => (err, next)
  | m :: ms, err, next =>
    let r := errors.Wrap err m next
    wrapAll ms r.1 r.2

/-- Nesting of `sqlError` values over `L`, one per context string, each one having the previous
value as its `err`; the last string of the list is the innermost context. -/
def nestSqlError : List String → GoError → Nat → GoError × Nat
  | [], L, next => (L, next)
  | q :: qs, L, next =>
    let r := nestSqlError qs L next
    (.sqlError r.2 q r.1, r.2 + 1)

/-- The string `m` occurs in `s` as a substring. -/
def IsSubstr (m s : String) : Prop :=
  ∃ pre post : String, s = pre ++ m ++ post

/-- The version of `isSqlErrNoRows` the specification recommends, which returns the result of
the chain identity test directly: `return errors.Is(err, sql.ErrNoRows)`. -/
def isSqlErrNoRowsDirect (err : GoError) : Bool :=
  errors.Is err sql.ErrNoRows

/-- Number of cause links below an error: the length of its `Unwrap` chain. -/
def GoError.depth : GoError → Nat
  | .withMessage _ cause _ => cause.depth + 1
  | .withStack _ error => error.depth + 1
  | .sqlError _ _ err => err.depth + 1
  | _ => 0

/-- The loop of the standard library `errors.Is` with a bound on the number of turns, written
with `Unwrap` as in the source; `none` when the bound is used up before the loop returns:
`for { if err == target { return true }`,
`switch x := err.(type) { case interface{ Unwrap() error }:`
`err = x.Unwrap(); if err == nil { return false }`, `default: return false } }`. -/
def stderrors.isFuel (target : GoError) : Nat → GoError → Option Bool
  | 0, _ => none
  | fuel + 1, err =>
    if err.ifaceEq target then some true
    else
      match err.Unwrap with
      | some x => if x.isNil then some false else isFuel target fuel x
      | none => some false

/-- Standard library `errors.Is` around the bounded loop:
`if err == nil || target == nil { return err == target }` and then the loop. -/
def stderrors.IsFuel (fuel : Nat) (err target : GoError) : Option Bool :=
  if err.isNil || target.isNil then some (err.ifaceEq target)
  else stderrors.isFuel target fuel err

/-- Every chained value inside the error has its cause present: no `sqlError` with a nil `err`,
and no `withMessage` or `withStack` of `errors.Wrap` over nil. -/
def GoError.causesPresent : GoError → Bool
  | .nil => true
  | .errorString _ _ => true
  | .fundamental _ _ => true
  | .withMessage _ cause _ => !cause.isNil && cause.causesPresent
  | .withStack _ error => !error.isNil && error.causesPresent
  | .sqlError _ _ err => !err.isNil && err.causesPresent

/-! ## Errors in a store

The fields of an `sqlError` are assignable (`e.err = e` is legal Go inside `main.go`), so in
memory a chain of causes can come back to itself.  To speak about that, the same methods and the
same loop are also given over a store: a map from addresses to values whose causes are
references.  -/

/-- A value of one of the five concrete types as it lies in memory; a cause field holds an
interface value, which is nil (`none`) or the address of another value. -/
inductive ErrObj where
  | errorString (s : String)
  | fundamental (msg : String)
  | withMessage (cause : Option Nat) (msg : String)
  | withStack (error : Option Nat)
  | sqlError (query : String) (err : Option Nat)
  deriving DecidableEq

/-- The method `Unwrap() error` of a value in memory, `none` when its type has no such method:
`func (e *sqlError) Unwrap() error { return e.err }`, and the two of pkg/errors. -/
def ErrObj.Unwrap : ErrObj → Option (Option Nat)
  | .sqlError _ err => some err
  | .withMessage cause _ => some cause
  | .withStack error => some error
  | _ => none

/-- A leaf error in memory: a value whose type has no `Unwrap` method. -/
def ErrObj.isLeaf : ErrObj → Bool
  | .errorString _ => true
  | .fundamental _ => true
  | _ => false

/-- Standard library `errors.Unwrap` over a store `st` (the value at each address; addresses
not in use hold an arbitrary value):
`u, ok := err.(interface{ Unwrap() error }); if !ok { return nil }; return u.Unwrap()`. -/
def Store.Unwrap (st : Nat → ErrObj) : Option Nat → Option Nat
  | none => none
  | some a =>
    match (st a).Unwrap with
    | some c => c
    | none => none

/-- The result of `k` successive calls of `errors.Unwrap` over a store. -/
def Store.unwrapN (st : Nat → ErrObj) : Nat → Option Nat → Option Nat
  | 0, err => err
  | k + 1, err => Store.unwrapN st k (Store.Unwrap st err)

/-- The loop of the standard library `errors.Is` over a store, with a bound on the number of
turns; `none` when the bound is used up before the loop returns.  Two interface values are `==`
when they are the same reference:
`for { if err == target { return true }`,
`switch x := err.(type) { case interface{ Unwrap() error }:`
`err = x.Unwrap(); if err == nil { return false }`, `default: return false } }`. -/
def Store.isFuel (st : Nat → ErrObj) (target : Option Nat) : Nat → Option Nat → Option Bool
  | 0, _ => none
  | fuel + 1, err =>
    if err = target then some true
    else
      match err with
      | none => some false
      | some a =>
        match (st a).Unwrap with
        | some x => if x = none then some false else Store.isFuel st target fuel x
        | none => some false

/-- Standard library `errors.Is` over a store:
`if err == nil || target == nil { return err == target }` and then the loop. -/
def Store.IsFuel (st : Nat → ErrObj) (fuel : Nat) (err target : Option Nat) : Option Bool :=
  if err = none ∨ target = none then some (decide (err = target))
  else Store.isFuel st target fuel err

/-- The store holds the error value `e`: at the address of every non-nil value inside `e` lies
the value with the same fields, its cause being the reference to the next value. -/
def Store.holds (st : Nat → ErrObj) : GoError → Prop
  | .nil => True
  | .errorString p s => st p = .errorString s
  | .fundamental p m => st p = .fundamental m
  | .withMessage p cause m => st p = .withMessage cause.addr m ∧ Store.holds st cause
  | .withStack p error => st p = .withStack error.addr ∧ Store.holds st error
  | .sqlError p q err => st p = .sqlError q err.addr ∧ Store.holds st err

/-- The store after `e := &sqlError{query: "loop"}; e.err = e`, with the sentinel
`sql.ErrNoRows` at address 0 and `e` at address 1. -/
def cyclicStore : Nat → ErrObj
  | 0 => .errorString "sql: no rows in result set"
  | 1 => .sqlError "loop" (some 1)
  | _ => .errorString ""

/-- The store after `sqlQueryReturnNoRows()`: the sentinel `sql.ErrNoRows` at address 0 and the
returned `sqlError` at address 1. -/
def noRowsStore : Nat → ErrObj
  | 0 => .errorString "sql: no rows in result set"
  | 1 => .sqlError "sqlQueryReturnNoRows" (some 0)
  | _ => .errorString ""

/-! ## Auxiliary facts about equality, `Unwrap` and the loop of `errors.Is` -/

theorem ifaceEq_self (a : GoError) : a.ifaceEq a = true := by
  simp [GoError.ifaceEq]

theorem ifaceEq_nil_left (t : GoError) (ht : t.isNil = false) :
    GoError.ifaceEq .nil t = false := by
  cases t <;> simp_all [GoError.ifaceEq, GoError.dynType, GoError.isNil]

theorem isNil_of_leaf (L : GoError) (hL : L.isLeaf = true) : L.isNil = false := by
  cases L <;> simp_all [GoError.isLeaf, GoError.isNil]

theorem unwrap_leaf (L : GoError) (hL : L.isLeaf = true) : stderrors.Unwrap L = .nil := by
  cases L <;> simp_all [GoError.isLeaf, stderrors.Unwrap, GoError.Unwrap]

theorem unwrapN_nil (k : Nat) : unwrapN k .nil = .nil := by
  induction k with
  | zero => rfl
  | succ k ih => simpa [unwrapN, stderrors.Unwrap, GoError.Unwrap] using ih

theorem unwrapN_succ_last (k : Nat) (e : GoError) :
    unwrapN (k + 1) e = stderrors.Unwrap (unwrapN k e) := by
  induction k generalizing e with
  | zero => rfl
  | succ k ih =>
    show unwrapN (k + 1) (stderrors.Unwrap e) = _
    rw [ih]
    rfl

/-- One turn of the loop of `errors.Is`: compare, then continue with the cause unless it is
nil. -/
theorem is_step (target err : GoError) :
    stderrors.is target err =
      (err.ifaceEq target ||
        (!(stderrors.Unwrap err).isNil && stderrors.is target (stderrors.Unwrap err))) := by
  cases err <;> simp [stderrors.is, stderrors.Unwrap, GoError.Unwrap, GoError.isNil]

/-- With a non-nil target the loop answers `false` on the nil error. -/
theorem is_nil (target : GoError) (ht : target.isNil = false) :
    stderrors.is target .nil = false := by
  simpa [stderrors.is] using ifaceEq_nil_left target ht

/-- The loop finds a target that occurs after `k` steps of `Unwrap`. -/
theorem is_of_unwrapN (target : GoError) (ht : target.isNil = false) :
    ∀ (k : Nat) (err : GoError),
      (unwrapN k err).ifaceEq target = true → stderrors.is target err = true := by
  intro k
  induction k with
  | zero =>
    intro err h
    rw [is_step]
    simp only [unwrapN] at h
    simp [h]
  | succ k ih =>
    intro err h
    have h2 := ih (stderrors.Unwrap err) h
    rw [is_step, h2]
    cases hn : (stderrors.Unwrap err).isNil with
    | false => simp
    | true =>
      have hnil : stderrors.Unwrap err = .nil := by
        cases hu : stderrors.Unwrap err <;> simp_all [GoError.isNil]
      rw [hnil, is_nil target ht] at h2
      exact absurd h2 (by decide)

/-- With a non-nil target, `errors.Is` is the loop, also on the nil error. -/
theorem Is_eq_is (err target : GoError) (ht : target.isNil = false) :
    errors.Is err target = stderrors.is target err := by
  unfold errors.Is stderrors.Is
  cases hn : err.isNil with
  | false => simp [ht]
  | true =>
    have hnil : err = .nil := by cases err <;> simp_all [GoError.isNil]
    subst hnil
    simp [is_nil target ht, ifaceEq_nil_left target ht]

theorem isSqlErrNoRows_eq (err : GoError) :
    isSqlErrNoRows err = stderrors.is sql.ErrNoRows err := by
  unfold isSqlErrNoRows
  rw [Is_eq_is err sql.ErrNoRows (by decide)]
  cases stderrors.is sql.ErrNoRows err <;> rfl

theorem wrap_fst_of_not_nil (err : GoError) (m : String) (next : Nat)
    (h : err.isNil = false) :
    (errors.Wrap err m next).1 = .withStack (next + 1) (.withMessage next err m) := by
  simp [errors.Wrap, h]

/-- Wrapping keeps a non-nil error non-nil and keeps every target the loop finds. -/
theorem wrapAll_keeps (target : GoError) :
    ∀ (ms : List String) (err : GoError) (next : Nat),
      err.isNil = false → stderrors.is target err = true →
        (wrapAll ms err next).1.isNil = false ∧
          stderrors.is target (wrapAll ms err next).1 = true := by
  intro ms
  induction ms with
  | nil => intro err next hn h; exact ⟨hn, h⟩
  | cons m ms ih =>
    intro err next hn h
    have hw : errors.Wrap err m next
        = (.withStack (next + 1) (.withMessage next err m), next + 2) := by
      simp [errors.Wrap, hn]
    simp only [wrapAll, hw]
    apply ih
    · rfl
    · have hm : (GoError.withMessage next err m).isNil = false := rfl
      simp [stderrors.is, hm, hn, h]

theorem nestSqlError_cons (q : String) (qs : List String) (L : GoError) (next : Nat) :
    (nestSqlError (q :: qs) L next).1
      = .sqlError (nestSqlError qs L next).2 q (nestSqlError qs L next).1 := rfl

theorem unwrapN_succ_sqlError (k p : Nat) (q : String) (e : GoError) :
    unwrapN (k + 1) (.sqlError p q e) = unwrapN k e := rfl

theorem not_ifaceEq_sqlError_leaf (p : Nat) (q : String) (e L : GoError)
    (hL : L.isLeaf = true) : (GoError.sqlError p q e).ifaceEq L = false := by
  cases L <;> simp_all [GoError.isLeaf, GoError.ifaceEq, GoError.dynType]

/-! ## The claims -/

/-- C1: an error whose cause chain (the error itself, then repeated `Unwrap`) contains the
sentinel `sql.ErrNoRows`, in the sense of the Go comparison `==`, makes `isSqlErrNoRows` return
true; so do the sentinel itself, every `sqlError` over the sentinel, and the value returned by
`sqlQueryReturnNoRows`. -/
theorem C1_isSqlErrNoRows_of_chain :
    (∀ (err : GoError) (k : Nat),
        (unwrapN k err).ifaceEq sql.ErrNoRows = true → isSqlErrNoRows err = true) ∧
      isSqlErrNoRows sql.ErrNoRows = true ∧
      (∀ (p : Nat) (q : String), isSqlErrNoRows (.sqlError p q sql.ErrNoRows) = true) ∧
      (∀ next : Nat, isSqlErrNoRows (sqlQueryReturnNoRows next).1 = true) := by
  have main : ∀ (err : GoError) (k : Nat),
      (unwrapN k err).ifaceEq sql.ErrNoRows = true → isSqlErrNoRows err = true := by
    intro err k h
    rw [isSqlErrNoRows_eq]
    exact is_of_unwrapN sql.ErrNoRows (by decide) k err h
  refine ⟨main, main _ 0 (by decide), ?_, ?_⟩
  · intro p q
    exact main _ 1 rfl
  · intro next
    exact main _ 1 rfl

/-- Witness of C1: the sentinel sits two `Unwrap` steps below a doubly nested `sqlError`. -/
theorem C1_isSqlErrNoRows_of_chain_witness :
    (unwrapN 2 (.sqlError 2 "outer" (.sqlError 1 "inner" sql.ErrNoRows))).ifaceEq
        sql.ErrNoRows = true ∧
      isSqlErrNoRows (.sqlError 2 "outer" (.sqlError 1 "inner" sql.ErrNoRows)) = true :=
  ⟨by decide,
    C1_isSqlErrNoRows_of_chain.1 (.sqlError 2 "outer" (.sqlError 1 "inner" sql.ErrNoRows)) 2
      (by decide)⟩

/-- C2: for every leaf error `L` and every list of context messages, applying `errors.Wrap`
once per message on top of an `sqlError` whose cause is `L` gives an error for which
`errors.Is(result, L)` is true; and `isSqlErrNoRows` is true of the value returned by
`sqlQueryReturnNoRowsWithWrap`. -/
theorem C2_Is_through_wrap :
    (∀ (L : GoError), L.isLeaf = true → ∀ (ms : List String) (p : Nat) (q : String)
        (next : Nat), errors.Is (wrapAll ms (.sqlError p q L) next).1 L = true) ∧
      (∀ next : Nat, isSqlErrNoRows (sqlQueryReturnNoRowsWithWrap next).1 = true) := by
  constructor
  · intro L hL ms p q next
    have hn := isNil_of_leaf L hL
    rw [Is_eq_is _ L hn]
    have h0 : stderrors.is L (.sqlError p q L) = true :=
      is_of_unwrapN L hn 1 _ (ifaceEq_self L)
    exact (wrapAll_keeps L ms (.sqlError p q L) next rfl h0).2
  · intro next
    rw [isSqlErrNoRows_eq]
    exact is_of_unwrapN sql.ErrNoRows (by decide) 3 _ rfl

/-- Witness of C2: two wraps over an `sqlError` whose cause is the sentinel. -/
theorem C2_Is_through_wrap_witness :
    sql.ErrNoRows.isLeaf = true ∧
      errors.Is (wrapAll ["a", "b"] (.sqlError 1 "query=A" sql.ErrNoRows) 2).1
        sql.ErrNoRows = true :=
  ⟨by decide, C2_Is_through_wrap.1 sql.ErrNoRows (by decide) ["a", "b"] 1 "query=A" 2⟩

/-- C4: `Unwrap` of an `sqlError` returns exactly its `err` field (as a method and through
`errors.Unwrap`); a leaf error has no cause (`errors.Unwrap` gives nil, the type has no
`Unwrap` method) and `errors.Is(L, L)` is true. -/
theorem C4_unwrap_immediate_cause :
    (∀ (p : Nat) (q : String) (c : GoError),
        (GoError.sqlError p q c).Unwrap = some c ∧
          stderrors.Unwrap (.sqlError p q c) = c) ∧
      (∀ L : GoError, L.isLeaf = true →
        stderrors.Unwrap L = .nil ∧ L.Unwrap = none ∧ errors.Is L L = true) := by
  constructor
  · intro p q c
    exact ⟨rfl, rfl⟩
  · intro L hL
    refine ⟨unwrap_leaf L hL, ?_, ?_⟩
    · cases L <;> simp_all [GoError.isLeaf, GoError.Unwrap]
    · rw [Is_eq_is L L (isNil_of_leaf L hL)]
      exact is_of_unwrapN L (isNil_of_leaf L hL) 0 L (ifaceEq_self L)

/-- Witness of C4: the sentinel is a leaf. -/
theorem C4_unwrap_immediate_cause_witness :
    sql.ErrNoRows.isLeaf = true ∧
      (stderrors.Unwrap sql.ErrNoRows = .nil ∧ sql.ErrNoRows.Unwrap = none ∧
        errors.Is sql.ErrNoRows sql.ErrNoRows = true) :=
  ⟨by decide, C4_unwrap_immediate_cause.2 sql.ErrNoRows (by decide)⟩

/-- C5: for a leaf `L` and `N` context strings, `N` successive `Unwrap` calls on the nesting of
`N` `sqlError` values over `L` give `L`, every earlier step gives an `sqlError`, which is not
`L`, and one more call gives nil (absent).  It holds for every `N`, so for every `N >= 1`. -/
theorem C5_unwrap_depth (L : GoError) (hL : L.isLeaf = true) (qs : List String)
    (next : Nat) :
    unwrapN qs.length (nestSqlError qs L next).1 = L ∧
      (∀ k : Nat, k < qs.length →
        (unwrapN k (nestSqlError qs L next).1).isSqlError = true ∧
          (unwrapN k (nestSqlError qs L next).1).ifaceEq L = false ∧
          unwrapN k (nestSqlError qs L next).1 ≠ L) ∧
      unwrapN (qs.length + 1) (nestSqlError qs L next).1 = .nil := by
  have hreach : ∀ qs : List String,
      unwrapN qs.length (nestSqlError qs L next).1 = L := by
    intro qs
    induction qs with
    | nil => rfl
    | cons q qs ih =>
      rw [nestSqlError_cons, List.length_cons, unwrapN_succ_sqlError]
      exact ih
  have hearly : ∀ (qs : List String) (k : Nat), k < qs.length →
      (unwrapN k (nestSqlError qs L next).1).isSqlError = true := by
    intro qs
    induction qs with
    | nil => intro k hk; exact absurd hk (Nat.not_lt_zero k)
    | cons q qs ih =>
      intro k hk
      rw [nestSqlError_cons]
      cases k with
      | zero => rfl
      | succ k =>
        rw [unwrapN_succ_sqlError]
        exact ih k (Nat.lt_of_succ_lt_succ hk)
  refine ⟨hreach qs, ?_, ?_⟩
  · intro k hk
    have hs := hearly qs k hk
    cases hu : unwrapN k (nestSqlError qs L next).1 with
    | sqlError p q e =>
      refine ⟨rfl, not_ifaceEq_sqlError_leaf p q e L hL, ?_⟩
      intro hEq
      rw [← hEq] at hL
      simp [GoError.isLeaf] at hL
    | nil => rw [hu] at hs; simp [GoError.isSqlError] at hs
    | errorString p s => rw [hu] at hs; simp [GoError.isSqlError] at hs
    | fundamental p m => rw [hu] at hs; simp [GoError.isSqlError] at hs
    | withMessage p c m => rw [hu] at hs; simp [GoError.isSqlError] at hs
    | withStack p e => rw [hu] at hs; simp [GoError.isSqlError] at hs
  · rw [unwrapN_succ_last, hreach qs]
    exact unwrap_leaf L hL

/-- Witness of C5: a chain of depth three over the sentinel. -/
theorem C5_unwrap_depth_witness :
    sql.ErrNoRows.isLeaf = true ∧
      (unwrapN 3 (nestSqlError ["c", "b", "a"] sql.ErrNoRows 1).1 = sql.ErrNoRows ∧
        (∀ k : Nat, k < 3 →
          (unwrapN k (nestSqlError ["c", "b", "a"] sql.ErrNoRows 1).1).isSqlError = true ∧
            (unwrapN k (nestSqlError ["c", "b", "a"] sql.ErrNoRows 1).1).ifaceEq
              sql.ErrNoRows = false ∧
            unwrapN k (nestSqlError ["c", "b", "a"] sql.ErrNoRows 1).1 ≠ sql.ErrNoRows) ∧
        unwrapN (3 + 1) (nestSqlError ["c", "b", "a"] sql.ErrNoRows 1).1 = .nil) :=
  ⟨by decide, C5_unwrap_depth sql.ErrNoRows (by decide) ["c", "b", "a"] 1⟩

/-- C6, as stated, fails: `&sqlError{}` is a non-nil cause, yet rendering an `sqlError` over it
produces no string, because the inner `Error` calls `Error` on its nil `err`. -/
theorem C6_counterexample :
    (GoError.sqlError 1 "" .nil).isNil = false ∧
      (GoError.sqlError 2 "Q" (.sqlError 1 "" .nil)).Error = none := by
  decide

/-- C6, amended: for every context string `Q` and every cause `L` whose own `Error()` returns a
message `m`, the rendering of `&sqlError{query: Q, err: L}` is a string that contains `m` and
contains `Q`; every leaf error is such a cause. -/
theorem C6_Error_contains :
    (∀ (p : Nat) (Q : String) (L : GoError) (m : String), L.Error = some m →
        ∃ s : String, (GoError.sqlError p Q L).Error = some s ∧ IsSubstr m s ∧ IsSubstr Q s) ∧
      (∀ L : GoError, L.isLeaf = true → ∃ m : String, L.Error = some m) := by
  constructor
  · intro p Q L m h
    refine ⟨"err: " ++ m ++ ", query: " ++ Q, ?_, ?_, ?_⟩
    · simp [GoError.Error, h]
    · exact ⟨"err: ", ", query: " ++ Q, by simp [String.append_assoc]⟩
    · exact ⟨"err: " ++ m ++ ", query: ", "", by simp⟩
  · intro L hL
    cases L with
    | errorString p s => exact ⟨s, rfl⟩
    | fundamental p m => exact ⟨m, rfl⟩
    | nil => simp [GoError.isLeaf] at hL
    | withMessage p c m => simp [GoError.isLeaf] at hL
    | withStack p e => simp [GoError.isLeaf] at hL
    | sqlError p q e => simp [GoError.isLeaf] at hL

/-- Witness of C6: an `sqlError` over the sentinel. -/
theorem C6_Error_contains_witness :
    sql.ErrNoRows.Error = some "sql: no rows in result set" ∧
      ∃ s : String, (GoError.sqlError 1 "Q" sql.ErrNoRows).Error = some s ∧
        IsSubstr "sql: no rows in result set" s ∧ IsSubstr "Q" s :=
  ⟨by decide,
    C6_Error_contains.1 1 "Q" sql.ErrNoRows "sql: no rows in result set" (by decide)⟩

/-- C7, as stated, fails: the rendering of an `sqlError` over the sentinel with context `c` is
not the string with the word `context`. -/
theorem C7_counterexample :
    sql.ErrNoRows.Error = some "sql: no rows in result set" ∧
      (GoError.sqlError 1 "c" sql.ErrNoRows).Error
        ≠ some ("err: " ++ "sql: no rows in result set" ++ ", context: " ++ "c") := by
  decide

/-- C7, amended: for every context string `c` and every cause whose message is `m`, the
rendering of `&sqlError{query: c, err: cause}` is exactly `"err: " ++ m ++ ", query: " ++ c`. -/
theorem C7_Error_exact (p : Nat) (c : String) (cause : GoError) (m : String)
    (h : cause.Error = some m) :
    (GoError.sqlError p c cause).Error = some ("err: " ++ m ++ ", query: " ++ c) := by
  simp [GoError.Error, h]

/-- Witness of C7: an `sqlError` over the sentinel. -/
theorem C7_Error_exact_witness :
    sql.ErrNoRows.Error = some "sql: no rows in result set" ∧
      (GoError.sqlError 1 "c" sql.ErrNoRows).Error
        = some ("err: " ++ "sql: no rows in result set" ++ ", query: " ++ "c") :=
  ⟨by decide, C7_Error_exact 1 "c" sql.ErrNoRows "sql: no rows in result set" (by decide)⟩

/-- C8, as stated, fails: two chains that differ only in the inner context render to different
strings, and the rendering of the outer error shows the inner context. -/
theorem C8_counterexample :
    (GoError.sqlError 2 "B" (.sqlError 1 "A1" sql.ErrNoRows)).Error
        ≠ (GoError.sqlError 2 "B" (.sqlError 1 "A2" sql.ErrNoRows)).Error ∧
      (GoError.sqlError 2 "B" (.sqlError 1 "A1" sql.ErrNoRows)).Error
        = some "err: err: sql: no rows in result set, query: A1, query: B" := by
  decide

/-- C8, amended: rendering goes through the cause's own `Error()`, so it is not local to one
level.  For `e = &sqlError{q2, e1}` over `e1 = &sqlError{q1, L}` with `L.Error() = m`, the
rendering of `e` is `"err: " ++ ("err: " ++ m ++ ", query: " ++ q1) ++ ", query: " ++ q2`; it
contains the inner context `q1`, and two such chains that differ only in `q1` render to
different strings. -/
theorem C8_Error_renders_cause (p1 p2 : Nat) (q1 q2 : String) (L : GoError) (m : String)
    (h : L.Error = some m) :
    (GoError.sqlError p2 q2 (.sqlError p1 q1 L)).Error
        = some ("err: " ++ ("err: " ++ m ++ ", query: " ++ q1) ++ ", query: " ++ q2) ∧
      IsSubstr q1 ("err: " ++ ("err: " ++ m ++ ", query: " ++ q1) ++ ", query: " ++ q2) ∧
      (∀ q1b : String, q1b ≠ q1 →
        (GoError.sqlError p2 q2 (.sqlError p1 q1b L)).Error
          ≠ (GoError.sqlError p2 q2 (.sqlError p1 q1 L)).Error) := by
  refine ⟨by simp [GoError.Error, h], ?_, ?_⟩
  · exact ⟨"err: " ++ ("err: " ++ m ++ ", query: "), ", query: " ++ q2,
      by simp [String.append_assoc]⟩
  · intro q1b hne hEq
    apply hne
    simp only [GoError.Error, h, Option.some.injEq] at hEq
    have hd := congrArg String.data hEq
    simp only [String.data_append, List.append_assoc, List.append_cancel_left_eq] at hd
    have hd2 := List.append_cancel_right hd
    exact String.ext hd2

/-- Witness of C8: a chain of depth two over the sentinel. -/
theorem C8_Error_renders_cause_witness :
    sql.ErrNoRows.Error = some "sql: no rows in result set" ∧
      (GoError.sqlError 2 "B" (.sqlError 1 "A" sql.ErrNoRows)).Error
        = some ("err: " ++ ("err: " ++ "sql: no rows in result set" ++ ", query: " ++ "A")
            ++ ", query: " ++ "B") :=
  ⟨by decide,
    (C8_Error_renders_cause 1 2 "A" "B" sql.ErrNoRows "sql: no rows in result set"
      (by decide)).1⟩

/-- C9, as stated, fails: the immediate cause of `errors.Wrap(e1, "wrapped")` is not `e1` but
the `withMessage` value that `Wrap` puts between its `withStack` and `e1`. -/
theorem C9_counterexample :
    stderrors.Unwrap (errors.Wrap (.sqlError 1 "query=A" sql.ErrNoRows) "wrapped" 2).1
        ≠ .sqlError 1 "query=A" sql.ErrNoRows ∧
      stderrors.Unwrap (errors.Wrap (.sqlError 1 "query=A" sql.ErrNoRows) "wrapped" 2).1
        = .withMessage 2 (.sqlError 1 "query=A" sql.ErrNoRows) "wrapped" := by
  decide

/-- C9, amended: `errors.Wrap` of a non-nil `e1` adds two levels, a `withStack` whose immediate
cause is a `withMessage` carrying the message, whose immediate cause is `e1`; so two `Unwrap`
calls on `Wrap(e1, m)` give `e1` (and `Wrap(nil, m)` is nil).  For `e1 = &sqlError{q, sentinel}`
and `e2 = Wrap(e1, m)`: two `Unwrap` calls on `e2` give `e1`, `Unwrap(e1)` is the sentinel and
`Unwrap(sentinel)` is nil. -/
theorem C9_wrap_two_levels :
    (∀ (e1 : GoError) (m : String) (next : Nat), e1.isNil = false →
        stderrors.Unwrap (errors.Wrap e1 m next).1 = .withMessage next e1 m ∧
          stderrors.Unwrap (stderrors.Unwrap (errors.Wrap e1 m next).1) = e1) ∧
      (∀ (m : String) (next : Nat), (errors.Wrap .nil m next).1 = .nil) ∧
      (∀ (p : Nat) (q m : String) (next : Nat),
        unwrapN 2 (errors.Wrap (.sqlError p q sql.ErrNoRows) m next).1
            = .sqlError p q sql.ErrNoRows ∧
          stderrors.Unwrap (.sqlError p q sql.ErrNoRows) = sql.ErrNoRows ∧
          stderrors.Unwrap sql.ErrNoRows = .nil) := by
  refine ⟨?_, ?_, ?_⟩
  · intro e1 m next h
    rw [wrap_fst_of_not_nil e1 m next h]
    exact ⟨rfl, rfl⟩
  · intro m next
    rfl
  · intro p q m next
    exact ⟨rfl, rfl, rfl⟩

/-- Witness of C9: the scenario of the specification. -/
theorem C9_wrap_two_levels_witness :
    (GoError.sqlError 1 "query=A" sql.ErrNoRows).isNil = false ∧
      (stderrors.Unwrap (errors.Wrap (.sqlError 1 "query=A" sql.ErrNoRows) "wrapped" 2).1
          = .withMessage 2 (.sqlError 1 "query=A" sql.ErrNoRows) "wrapped" ∧
        stderrors.Unwrap
            (stderrors.Unwrap
              (errors.Wrap (.sqlError 1 "query=A" sql.ErrNoRows) "wrapped" 2).1)
          = .sqlError 1 "query=A" sql.ErrNoRows) :=
  ⟨by decide,
    C9_wrap_two_levels.1 (.sqlError 1 "query=A" sql.ErrNoRows) "wrapped" 2 (by decide)⟩

/-- C10: an `sqlError` over `sql.ErrNoRows` is not `==` to `sql.ErrNoRows` (nor equal to it as a
value), and neither is `errors.Wrap` of it, although `isSqlErrNoRows` is true of both; this
holds for the values returned by `sqlQueryReturnNoRows` and `sqlQueryReturnNoRowsWithWrap`. -/
theorem C10_direct_comparison_breaks :
    (∀ (p : Nat) (q : String),
        (GoError.sqlError p q sql.ErrNoRows).ifaceEq sql.ErrNoRows = false ∧
          GoError.sqlError p q sql.ErrNoRows ≠ sql.ErrNoRows ∧
          isSqlErrNoRows (.sqlError p q sql.ErrNoRows) = true) ∧
      (∀ (p : Nat) (q m : String) (next : Nat),
        (errors.Wrap (.sqlError p q sql.ErrNoRows) m next).1.ifaceEq sql.ErrNoRows = false ∧
          (errors.Wrap (.sqlError p q sql.ErrNoRows) m next).1 ≠ sql.ErrNoRows ∧
          isSqlErrNoRows (errors.Wrap (.sqlError p q sql.ErrNoRows) m next).1 = true) ∧
      (∀ next : Nat,
        (sqlQueryReturnNoRows next).1.ifaceEq sql.ErrNoRows = false ∧
          isSqlErrNoRows (sqlQueryReturnNoRows next).1 = true) ∧
      (∀ next : Nat,
        (sqlQueryReturnNoRowsWithWrap next).1.ifaceEq sql.ErrNoRows = false ∧
          isSqlErrNoRows (sqlQueryReturnNoRowsWithWrap next).1 = true) := by
  have hfind : ∀ (k : Nat) (e : GoError), unwrapN k e = sql.ErrNoRows →
      isSqlErrNoRows e = true := by
    intro k e h
    rw [isSqlErrNoRows_eq]
    apply is_of_unwrapN sql.ErrNoRows (by decide) k e
    rw [h]
    decide
  refine ⟨?_, ?_, ?_, ?_⟩
  · intro p q
    refine ⟨rfl, ?_, hfind 1 _ rfl⟩
    intro h
    exact GoError.noConfusion h
  · intro p q m next
    refine ⟨rfl, ?_, hfind 3 _ rfl⟩
    intro h
    exact GoError.noConfusion h
  · intro next
    exact ⟨rfl, hfind 1 _ rfl⟩
  · intro next
    exact ⟨rfl, hfind 3 _ rfl⟩

/-! ## Termination of the traversal and safety of `Error` -/

/-- With more turns than the chain has links, the bounded loop returns, and it returns the
value of the loop defined by recursion on the cause. -/
theorem isFuel_eq_is (target : GoError) :
    ∀ (err : GoError) (fuel : Nat), err.depth < fuel →
      stderrors.isFuel target fuel err = some (stderrors.is target err) := by
  intro err
  induction err with
  | nil =>
    intro fuel h
    cases fuel with
    | zero => exact absurd h (Nat.not_lt_zero _)
    | succ f =>
      cases hc : GoError.ifaceEq .nil target <;>
        simp [stderrors.isFuel, stderrors.is, GoError.Unwrap, hc]
  | errorString p s =>
    intro fuel h
    cases fuel with
    | zero => exact absurd h (Nat.not_lt_zero _)
    | succ f =>
      cases hc : GoError.ifaceEq (.errorString p s) target <;>
        simp [stderrors.isFuel, stderrors.is, GoError.Unwrap, hc]
  | fundamental p m =>
    intro fuel h
    cases fuel with
    | zero => exact absurd h (Nat.not_lt_zero _)
    | succ f =>
      cases hc : GoError.ifaceEq (.fundamental p m) target <;>
        simp [stderrors.isFuel, stderrors.is, GoError.Unwrap, hc]
  | withMessage p cause m ih =>
    intro fuel h
    cases fuel with
    | zero => exact absurd h (Nat.not_lt_zero _)
    | succ f =>
      have hf : cause.depth < f := Nat.lt_of_succ_lt_succ h
      cases hc : GoError.ifaceEq (.withMessage p cause m) target <;>
        cases hn : cause.isNil <;>
        simp [stderrors.isFuel, stderrors.is, GoError.Unwrap, hc, hn, ih f hf]
  | withStack p e ih =>
    intro fuel h
    cases fuel with
    | zero => exact absurd h (Nat.not_lt_zero _)
    | succ f =>
      have hf : e.depth < f := Nat.lt_of_succ_lt_succ h
      cases hc : GoError.ifaceEq (.withStack p e) target <;>
        cases hn : e.isNil <;>
        simp [stderrors.isFuel, stderrors.is, GoError.Unwrap, hc, hn, ih f hf]
  | sqlError p q e ih =>
    intro fuel h
    cases fuel with
    | zero => exact absurd h (Nat.not_lt_zero _)
    | succ f =>
      have hf : e.depth < f := Nat.lt_of_succ_lt_succ h
      cases hc : GoError.ifaceEq (.sqlError p q e) target <;>
        cases hn : e.isNil <;>
        simp [stderrors.isFuel, stderrors.is, GoError.Unwrap, hc, hn, ih f hf]

/-- On a chain that ends within `n` steps the loop over a store returns within `n + 1`
turns. -/
theorem Store.isFuel_returns (st : Nat → ErrObj) (target : Option Nat) :
    ∀ (n : Nat) (err : Option Nat), Store.unwrapN st n err = none →
      ∀ fuel : Nat, n < fuel → ∃ b : Bool, Store.isFuel st target fuel err = some b := by
  intro n
  induction n with
  | zero =>
    intro err h fuel hf
    have he : err = none := h
    subst he
    cases fuel with
    | zero => exact absurd hf (Nat.lt_irrefl 0)
    | succ f =>
      by_cases ht : (none : Option Nat) = target
      · exact ⟨true, by simp [Store.isFuel, ht]⟩
      · exact ⟨false, by simp [Store.isFuel, ht]⟩
  | succ n ih =>
    intro err h fuel hf
    cases fuel with
    | zero => exact absurd hf (Nat.not_lt_zero _)
    | succ f =>
      have hf2 : n < f := Nat.lt_of_succ_lt_succ hf
      by_cases ht : err = target
      · exact ⟨true, by simp [Store.isFuel, ht]⟩
      · cases err with
        | none => exact ⟨false, by simp [Store.isFuel, ht]⟩
        | some a =>
          cases hu : (st a).Unwrap with
          | none => exact ⟨false, by simp [Store.isFuel, ht, hu]⟩
          | some x =>
            cases x with
            | none => exact ⟨false, by simp [Store.isFuel, ht, hu]⟩
            | some c =>
              have hx : Store.unwrapN st n (some c) = none := by
                have h2 : Store.unwrapN st n (Store.Unwrap st (some a)) = none := h
                simpa [Store.Unwrap, hu] using h2
              obtain ⟨b, hb⟩ := ih (some c) hx f hf2
              exact ⟨b, by simp [Store.isFuel, ht, hu, hb]⟩

/-- One more turn does not change what the loop over a store has returned. -/
theorem Store.isFuel_succ (st : Nat → ErrObj) (target : Option Nat) (b : Bool) :
    ∀ (fuel : Nat) (err : Option Nat), Store.isFuel st target fuel err = some b →
      Store.isFuel st target (fuel + 1) err = some b := by
  intro fuel
  induction fuel with
  | zero => intro err h; simp [Store.isFuel] at h
  | succ f ih =>
    intro err h
    by_cases ht : err = target
    · simp only [Store.isFuel, ht, if_true] at h ⊢
      exact h
    · cases err with
      | none =>
        simp only [Store.isFuel, ht, if_false] at h ⊢
        exact h
      | some a =>
        cases hu : (st a).Unwrap with
        | none =>
          simp only [Store.isFuel, ht, if_false, hu] at h ⊢
          exact h
        | some x =>
          cases x with
          | none =>
            simp only [Store.isFuel, ht, if_false, hu, if_true] at h ⊢
            exact h
          | some c =>
            have h1 : Store.isFuel st target f (some c) = some b := by
              simpa [Store.isFuel, ht, hu] using h
            have h2 := ih (some c) h1
            have h3 : Store.isFuel st target (f + 1 + 1) (some a)
                = Store.isFuel st target (f + 1) (some c) := by
              rw [Store.isFuel]
              simp [ht, hu]
            rw [h3]
            exact h2

/-- More turns do not change what the loop over a store has returned. -/
theorem Store.isFuel_mono (st : Nat → ErrObj) (target : Option Nat) (b : Bool)
    (err : Option Nat) (f : Nat) (h : Store.isFuel st target f err = some b) :
    ∀ g : Nat, f ≤ g → Store.isFuel st target g err = some b := by
  intro g hg
  induction hg with
  | refl => exact h
  | step _ ih => exact Store.isFuel_succ st target b _ err ih

/-- A chain that starts at a non-nil error and ends within `n` steps has a last error, reached
in fewer than `n` steps, whose `Unwrap` is nil. -/
theorem Store.last_of_chain (st : Nat → ErrObj) :
    ∀ (n a : Nat), Store.unwrapN st n (some a) = none →
      ∃ k b : Nat, k < n ∧ Store.unwrapN st k (some a) = some b ∧
        Store.Unwrap st (some b) = none := by
  intro n
  induction n with
  | zero => intro a h; simp [Store.unwrapN] at h
  | succ n ih =>
    intro a h
    cases hu : Store.Unwrap st (some a) with
    | none => exact ⟨0, a, Nat.succ_pos n, rfl, hu⟩
    | some c =>
      have hc : Store.unwrapN st n (some c) = none := by
        have h2 : Store.unwrapN st n (Store.Unwrap st (some a)) = none := h
        rwa [hu] at h2
      obtain ⟨k, b, hk, hkb, hb⟩ := ih c hc
      refine ⟨k + 1, b, Nat.succ_lt_succ hk, ?_, hb⟩
      show Store.unwrapN st k (Store.Unwrap st (some a)) = some b
      rw [hu]
      exact hkb

/-- An error whose `Unwrap` is nil is a leaf or a chained value whose cause field is nil. -/
theorem Store.no_cause_cases (st : Nat → ErrObj) (b : Nat)
    (h : Store.Unwrap st (some b) = none) :
    (st b).isLeaf = true ∨ (st b).Unwrap = some none := by
  cases hb : st b <;> simp_all [Store.Unwrap, ErrObj.Unwrap, ErrObj.isLeaf]

/-- A value built by construction alone lies in the store as a chain that ends: `depth + 1`
calls of `Unwrap` give nil. -/
theorem Store.holds_ends (st : Nat → ErrObj) :
    ∀ e : GoError, Store.holds st e → Store.unwrapN st (e.depth + 1) e.addr = none := by
  intro e
  induction e with
  | nil => intro _; rfl
  | errorString p s =>
    intro h
    have h1 : st p = .errorString s := h
    simp [Store.unwrapN, Store.Unwrap, GoError.addr, GoError.depth, h1, ErrObj.Unwrap]
  | fundamental p m =>
    intro h
    have h1 : st p = .fundamental m := h
    simp [Store.unwrapN, Store.Unwrap, GoError.addr, GoError.depth, h1, ErrObj.Unwrap]
  | withMessage p cause m ih =>
    intro h
    have h1 : st p = .withMessage cause.addr m ∧ Store.holds st cause := h
    have h2 := ih h1.2
    show Store.unwrapN st (cause.depth + 1) (Store.Unwrap st (some p)) = none
    simpa [Store.Unwrap, h1.1, ErrObj.Unwrap] using h2
  | withStack p e ih =>
    intro h
    have h1 : st p = .withStack e.addr ∧ Store.holds st e := h
    have h2 := ih h1.2
    show Store.unwrapN st (e.depth + 1) (Store.Unwrap st (some p)) = none
    simpa [Store.Unwrap, h1.1, ErrObj.Unwrap] using h2
  | sqlError p q e ih =>
    intro h
    have h1 : st p = .sqlError q e.addr ∧ Store.holds st e := h
    have h2 := ih h1.2
    show Store.unwrapN st (e.depth + 1) (Store.Unwrap st (some p)) = none
    simpa [Store.Unwrap, h1.1, ErrObj.Unwrap] using h2

/-- On the store with the `sqlError` that is its own cause, the loop never returns. -/
theorem cyclicStore_isFuel (fuel : Nat) :
    Store.isFuel cyclicStore (some 0) fuel (some 1) = none := by
  induction fuel with
  | zero => rfl
  | succ f ih => simp [Store.isFuel, cyclicStore, ErrObj.Unwrap, ih]

/-- On the store with the `sqlError` that is its own cause, `Unwrap` stays on that error. -/
theorem cyclicStore_unwrapN (k : Nat) :
    Store.unwrapN cyclicStore k (some 1) = some 1 := by
  induction k with
  | zero => rfl
  | succ k ih =>
    show Store.unwrapN cyclicStore k (Store.Unwrap cyclicStore (some 1)) = some 1
    simpa [Store.Unwrap, cyclicStore, ErrObj.Unwrap] using ih

/-- A non-nil error in which every cause is present renders without a panic. -/
theorem Error_of_causesPresent :
    ∀ e : GoError, e.isNil = false → e.causesPresent = true →
      ∃ s : String, e.Error = some s := by
  intro e
  induction e with
  | nil => intro h; simp [GoError.isNil] at h
  | errorString p s => intro _ _; exact ⟨s, rfl⟩
  | fundamental p m => intro _ _; exact ⟨m, rfl⟩
  | withMessage p cause m ih =>
    intro _ h
    simp only [GoError.causesPresent, Bool.and_eq_true, Bool.not_eq_true'] at h
    obtain ⟨c, hc⟩ := ih h.1 h.2
    exact ⟨m ++ ": " ++ c, by simp [GoError.Error, hc]⟩
  | withStack p e ih =>
    intro _ h
    simp only [GoError.causesPresent, Bool.and_eq_true, Bool.not_eq_true'] at h
    obtain ⟨c, hc⟩ := ih h.1 h.2
    exact ⟨c, by simp [GoError.Error, hc]⟩
  | sqlError p q e ih =>
    intro _ h
    simp only [GoError.causesPresent, Bool.and_eq_true, Bool.not_eq_true'] at h
    obtain ⟨c, hc⟩ := ih h.1 h.2
    exact ⟨"err: " ++ c ++ ", query: " ++ q, by simp [GoError.Error, hc]⟩

/-! ## The claims, continued -/

/-- C11: the `if`/`else` of `isSqlErrNoRows` is redundant: for every error, nil included,
`isSqlErrNoRows(err)` is exactly the boolean `errors.Is(err, sql.ErrNoRows)`, so the function is
equal to the version that returns the result of the test directly. -/
theorem C11_isSqlErrNoRows_refines_direct :
    (∀ err : GoError, isSqlErrNoRows err = errors.Is err sql.ErrNoRows) ∧
      isSqlErrNoRows = isSqlErrNoRowsDirect := by
  have h : ∀ err : GoError, isSqlErrNoRows err = errors.Is err sql.ErrNoRows := by
    intro err
    unfold isSqlErrNoRows
    cases errors.Is err sql.ErrNoRows <;> rfl
  exact ⟨h, funext h⟩

/-- C12, as stated, fails twice.  After `e := &sqlError{query: "loop"}; e.err = e` the chain
of `e` comes back to `e`: no number of `Unwrap` calls leaves `e`, so no leaf is reached, and the
loop of `errors.Is(e, sql.ErrNoRows)` returns within no number of turns.  And from `&sqlError{}`,
whose `err` is nil, `Unwrap` gives nil at once: no step of the chain is a leaf error. -/
theorem C12_counterexample :
    (∀ fuel : Nat, Store.IsFuel cyclicStore fuel (some 1) (some 0) = none) ∧
      (∀ k : Nat, Store.unwrapN cyclicStore k (some 1) = some 1) ∧
      (cyclicStore 1).isLeaf = false ∧
      (∀ k : Nat, (unwrapN k (.sqlError 1 "" .nil)).isLeaf = false) := by
  refine ⟨?_, cyclicStore_unwrapN, by decide, ?_⟩
  · intro fuel
    have h := cyclicStore_isFuel fuel
    simpa [Store.IsFuel] using h
  · intro k
    match k with
    | 0 => decide
    | k + 1 =>
      show (unwrapN k .nil).isLeaf = false
      rw [unwrapN_nil]
      decide

/-- C12, amended: under the invariant that the chain of causes is finite (some number `n` of
`Unwrap` calls from `err` gives nil), the traversal of `errors.Is` terminates: for every target
the loop returns a boolean within `n + 1` turns, the same one however many more turns it is
given; and following `Unwrap` from a non-nil `err` reaches, in fewer than `n` steps, an error
with no cause, which is a leaf error or a chained value whose cause field is nil.  Every error
built by construction alone, as all errors of `main.go` are, satisfies the invariant with
`n = depth + 1`. -/
theorem C12_Is_terminates_on_finite_chains :
    (∀ (st : Nat → ErrObj) (err : Option Nat) (n : Nat),
        Store.unwrapN st n err = none →
          ∀ target : Option Nat, ∃ b : Bool, ∀ fuel : Nat, n < fuel →
            Store.IsFuel st fuel err target = some b) ∧
      (∀ (st : Nat → ErrObj) (a n : Nat), Store.unwrapN st n (some a) = none →
        ∃ k b : Nat, k < n ∧ Store.unwrapN st k (some a) = some b ∧
          Store.Unwrap st (some b) = none ∧
          ((st b).isLeaf = true ∨ (st b).Unwrap = some none)) ∧
      (∀ (st : Nat → ErrObj) (e : GoError), Store.holds st e →
        Store.unwrapN st (e.depth + 1) e.addr = none) := by
  refine ⟨?_, ?_, Store.holds_ends⟩
  · intro st err n h target
    by_cases hnil : err = none ∨ target = none
    · exact ⟨decide (err = target), fun fuel _ => by simp [Store.IsFuel, hnil]⟩
    · obtain ⟨b, hb⟩ := Store.isFuel_returns st target n err h (n + 1) (Nat.lt_succ_self n)
      refine ⟨b, fun fuel hf => ?_⟩
      have hm := Store.isFuel_mono st target b err (n + 1) hb fuel hf
      simpa [Store.IsFuel, hnil] using hm
  · intro st a n h
    obtain ⟨k, b, hk, hkb, hb⟩ := Store.last_of_chain st n a h
    exact ⟨k, b, hk, hkb, hb, Store.no_cause_cases st b hb⟩

/-- Witness of C12: the chain of the error returned by `sqlQueryReturnNoRows` ends after two
`Unwrap` calls, and `errors.Is` against the sentinel returns on it. -/
theorem C12_Is_terminates_on_finite_chains_witness :
    Store.unwrapN noRowsStore 2 (some 1) = none ∧
      ∃ b : Bool, ∀ fuel : Nat, 2 < fuel →
        Store.IsFuel noRowsStore fuel (some 1) (some 0) = some b :=
  ⟨by decide,
    C12_Is_terminates_on_finite_chains.1 noRowsStore (some 1) 2 (by decide) (some 0)⟩

/-- C13: `Error()` of an `sqlError` with a nil `err` panics, but every non-nil error whose
causes are all present renders to a string, and each of `sqlQueryReturnInvalidQuery`,
`sqlQueryReturnNoRows` and `sqlQueryReturnNoRowsWithWrap` returns a non-nil error whose causes
are all present, so `Error()` returns a string on all three results. -/
theorem C13_Error_safe :
    (∀ (p : Nat) (q : String), (GoError.sqlError p q .nil).Error = none) ∧
      (∀ e : GoError, e.isNil = false → e.causesPresent = true →
        ∃ s : String, e.Error = some s) ∧
      (∀ next : Nat,
        (sqlQueryReturnInvalidQuery next).1.isNil = false ∧
          (sqlQueryReturnInvalidQuery next).1.causesPresent = true ∧
          ∃ s : String, (sqlQueryReturnInvalidQuery next).1.Error = some s) ∧
      (∀ next : Nat,
        (sqlQueryReturnNoRows next).1.isNil = false ∧
          (sqlQueryReturnNoRows next).1.causesPresent = true ∧
          ∃ s : String, (sqlQueryReturnNoRows next).1.Error = some s) ∧
      (∀ next : Nat,
        (sqlQueryReturnNoRowsWithWrap next).1.isNil = false ∧
          (sqlQueryReturnNoRowsWithWrap next).1.causesPresent = true ∧
          ∃ s : String, (sqlQueryReturnNoRowsWithWrap next).1.Error = some s) := by
  refine ⟨fun _ _ => rfl, Error_of_causesPresent, ?_, ?_, ?_⟩
  · intro next
    exact ⟨rfl, rfl, Error_of_causesPresent _ rfl rfl⟩
  · intro next
    exact ⟨rfl, rfl, Error_of_causesPresent _ rfl rfl⟩
  · intro next
    exact ⟨rfl, rfl, Error_of_causesPresent _ rfl rfl⟩

/-- Witness of C13: the wrapped chain returned by `sqlQueryReturnNoRowsWithWrap`. -/
theorem C13_Error_safe_witness :
    (sqlQueryReturnNoRowsWithWrap 1).1.isNil = false ∧
      (sqlQueryReturnNoRowsWithWrap 1).1.causesPresent = true ∧
      ∃ s : String, (sqlQueryReturnNoRowsWithWrap 1).1.Error = some s :=
  ⟨by decide, by decide,
    C13_Error_safe.2.1 (sqlQueryReturnNoRowsWithWrap 1).1 (by decide) (by decide)⟩

/-- C14: the sample constructors render to fixed strings, and in general the rendering of
`&sqlError{query: q, err: c}` is `"err: " ++ c.Error() ++ ", query: " ++ q`: it is that string
when `c.Error()` returns, and it panics exactly when `c.Error()` does. -/
theorem C14_Error_fixed_strings :
    (∀ next : Nat, (sqlQueryReturnNoRows next).1.Error
        = some "err: sql: no rows in result set, query: sqlQueryReturnNoRows") ∧
      (∀ next : Nat, (sqlQueryReturnInvalidQuery next).1.Error
        = some "err: dao: invalid query, query: sqlQueryReturnInvalidQuery") ∧
      (∀ (p : Nat) (q : String) (c : GoError),
        (GoError.sqlError p q c).Error
          = c.Error.map (fun m => "err: " ++ m ++ ", query: " ++ q)) := by
  refine ⟨fun _ => rfl, fun _ => rfl, ?_⟩
  intro p q c
  cases h : c.Error <;> simp [GoError.Error, h]

/-- C15: a nil error is not reported as the no-rows condition: `isSqlErrNoRows(nil)` is false,
as is `errors.Is(nil, sql.ErrNoRows)`, at the first test of `errors.Is` and without a turn of
the loop. -/
theorem C15_isSqlErrNoRows_nil :
    isSqlErrNoRows .nil = false ∧ errors.Is .nil sql.ErrNoRows = false ∧
      stderrors.IsFuel 0 .nil sql.ErrNoRows = some false := by
  decide

end DaoErr
